import Mathlib

/-!
Verification of the BarkPush notification client (src/bark_push.hpp) against
its natural-language specification.  C++ `std::string` values are modelled as
`List Char` (one `Char` per byte/character); `std::map<std::string,
std::string>` is modelled as an association list sorted by the `<` order on
strings, which is how the C++ map iterates; the cURL transport is modelled as
an oracle value passed to `send`.
-/

/-- Model of `std::string`: a list of characters. -/
abbrev Str := List Char

/-- The opening-brace character, written via its code point. -/
def obr : Char := Char.ofNat 123

/-- The closing-brace character, written via its code point. -/
def cbr : Char := Char.ofNat 125

/-- Lowercase hexadecimal digit, as produced by `std::hex` on an
`ostringstream` (the source uses the default lowercase formatting). -/
def hexDigit (n : Nat) : Char :=
  if n < 10 then Char.ofNat (48 + n) else Char.ofNat (87 + n)

/-- One step of `BarkPush::escapeJson` (the `switch` body of the loop in
src/bark_push.hpp lines 90-111): the seven special characters get their
two-character escapes, any other character with code point ≤ 0x1F becomes
`\u00XX` (lowercase, zero padded), anything else passes through. -/
def escapeChar (c : Char) : List Char :=
  if c = '"' then ['\\', '"']
  else if c = '\\' then ['\\', '\\']
  else if c = Char.ofNat 8 then ['\\', 'b']
  else if c = Char.ofNat 12 then ['\\', 'f']
  else if c = '\n' then ['\\', 'n']
  else if c = '\r' then ['\\', 'r']
  else if c = '\t' then ['\\', 't']
  else if c.toNat ≤ 31 then
    ['\\', 'u', '0', '0', hexDigit (c.toNat / 16), hexDigit (c.toNat % 16)]
  else [c]

/-- `BarkPush::escapeJson` (src/bark_push.hpp lines 87-114): the loop over the
input appending `escapeChar` of each character. -/
def escapeJson : Str → Str
  | [] => []
  | c :: t => escapeChar c ++ escapeJson t

/-- Value of one hexadecimal digit character, `none` on a non-hex character.
Used by the spec-side JSON unescaper. -/
def hexVal? (c : Char) : Option Nat :=
  if '0' ≤ c ∧ c ≤ '9' then some (c.toNat - 48)
  else if 'a' ≤ c ∧ c ≤ 'f' then some (c.toNat - 87)
  else if 'A' ≤ c ∧ c ≤ 'F' then some (c.toNat - 55)
  else none

/-- Modelled from the spec: standard JSON string-unescaping (the inverse
direction of the escaping rule of §4.1; the code itself never decodes, the
spec's round-trip property "decodes back to the original string" refers to a
standard JSON decoder).  Decodes the two-character escapes, `\uXXXX`
sequences, and passes other characters through; returns `none` on a malformed
escape. -/
def unescapeJson : Str → Option Str
  | [] => some []
  | c :: rest =>
    if c = '\\' then
      match rest with
      | [] => none
      | e :: t =>
        if e = '"' then (unescapeJson t).map (List.cons '"')
        else if e = '\\' then (unescapeJson t).map (List.cons '\\')
        else if e = 'b' then (unescapeJson t).map (List.cons (Char.ofNat 8))
        else if e = 'f' then (unescapeJson t).map (List.cons (Char.ofNat 12))
        else if e = 'n' then (unescapeJson t).map (List.cons '\n')
        else if e = 'r' then (unescapeJson t).map (List.cons '\r')
        else if e = 't' then (unescapeJson t).map (List.cons '\t')
        else if e = 'u' then
          match t with
          | a :: b :: x :: d :: t2 =>
            match hexVal? a, hexVal? b, hexVal? x, hexVal? d with
            | some p, some q, some r, some s =>
              (unescapeJson t2).map (List.cons (Char.ofNat (4096 * p + 256 * q + 16 * r + s)))
            | _, _, _, _ => none
          | _ => none
        else none
    else (unescapeJson rest).map (List.cons c)

/-- `BarkPush::normalizeUrl` (src/bark_push.hpp lines 71-85): empty strings
and strings already starting with `http://` or `https://` are returned
unchanged, everything else gets `https://` prepended.  The C++ guards
`url.size() >= prefix.size() && url.substr(0, n) == prefix` are modelled by
the corresponding `List.take` equations. -/
def normalizeUrl (url : Str) : Str :=
  if url = [] then url
  else if 7 ≤ url.length ∧ url.take 7 = "http://".data then url
  else if 8 ≤ url.length ∧ url.take 8 = "https://".data then url
  else "https://".data ++ url

/-- Request-URL construction in `BarkPush::send` (src/bark_push.hpp lines
257-260): `url = server_; if (url.back() != '/') url += '/'; url += "push";`.
`std::string::back()` on an empty string is undefined behaviour, so the
construction is partial: the empty server string maps to `none`.  The last
character of a non-empty string is the head of its reversal. -/
def buildRequestUrl (server : Str) : Option Str :=
  match server.reverse with
  | [] => none
  | c :: _ => some (server ++ (if c = '/' then [] else ['/']) ++ "push".data)

/-- Lexicographic `operator<` on strings, comparing character code points,
as used by `std::map<std::string, std::string>` to order its keys. -/
def strLt : Str → Str → Bool
  | [], [] => false
  | [], _ :: _ => true
  | _ :: _, [] => false
  | a :: s, b :: t =>
    if a.toNat < b.toNat then true
    else if b.toNat < a.toNat then false
    else strLt s t

/-- Model of `std::map<std::string, std::string>`: an association list kept
sorted by `strLt` on the keys. -/
abbrev Params := List (Str × Str)

/-- Insertion/assignment into the sorted-association-list model of
`std::map` (`map[k] = v` overwrites an existing binding). -/
def mapSet : Params → Str → Str → Params
  | [], k, v => [(k, v)]
  | (k0, v0) :: rest, k, v =>
    if strLt k k0 then (k, v) :: (k0, v0) :: rest
    else if k = k0 then (k, v) :: rest
    else (k0, v0) :: mapSet rest k v

/-- Lookup in the association-list model of `std::map` (`map.find(k)`). -/
def mapFind : Params → Str → Option Str
  | [], _ => none
  | (k0, v0) :: rest, k => if k = k0 then some v0 else mapFind rest k

/-- Consumption of the optional leading `[-+]` of the numeric regular
expression of src/bark_push.hpp line 282. -/
def stripSign : Str → Str
  | c :: t => if c = '-' ∨ c = '+' then t else c :: t
  | [] => []

/-- Exponent part of the numeric regular expression
`^[-+]?[0-9]*\.?[0-9]+([eE][-+]?[0-9]+)?$` of src/bark_push.hpp line 282:
either the empty remainder, or `e`/`E`, an optional sign, and at least one
digit reaching the end of the string. -/
def expTail (s : Str) : Bool :=
  match s with
  | [] => true
  | c :: t =>
    if c = 'e' ∨ c = 'E' then
      let t2 := stripSign t
      decide (t2.takeWhile Char.isDigit ≠ []) && decide (t2.dropWhile Char.isDigit = [])
    else false

/-- Matcher for the full numeric regular expression
`^[-+]?[0-9]*\.?[0-9]+([eE][-+]?[0-9]+)?$` (src/bark_push.hpp line 282):
optional sign, then either a non-empty digit run, or a possibly-empty digit
run, a dot and a non-empty digit run, then an optional exponent. -/
def isNumLit (s : Str) : Bool :=
  match (stripSign s).dropWhile Char.isDigit with
  | '.' :: r2 =>
    decide (r2.takeWhile Char.isDigit ≠ []) && expTail (r2.dropWhile Char.isDigit)
  | r1 => decide ((stripSign s).takeWhile Char.isDigit ≠ []) && expTail r1

/-- Emission of one extra-parameter value in `BarkPush::send` (the loop body
of src/bark_push.hpp lines 284-301): the exact strings `true` and `false`
go out bare, strings matching the numeric regular expression go out bare,
everything else is escaped and quoted. -/
def emitParamValue (v : Str) : Str :=
  if v = "true".data ∨ v = "false".data then v
  else if isNumLit v then v
  else '"' :: (escapeJson v ++ ['"'])

/-- An escaped string in double quotes, as emitted for device keys, title
and body. -/
def quoteStr (s : Str) : Str := '"' :: (escapeJson s ++ ['"'])

/-- The `device_keys` JSON array contents (src/bark_push.hpp lines 272-277):
each key escaped and quoted, separated by commas. -/
def deviceKeysJson (keys : List Str) : Str :=
  List.intercalate [','] (keys.map quoteStr)

/-- The extra-parameter fragment of the JSON body (src/bark_push.hpp lines
284-301): for each pair, a comma, the key verbatim in quotes, a colon, and
the emitted value.  The parameter list is iterated in map (sorted-key)
order. -/
def paramsJson (ps : Params) : Str :=
  ps.foldl (fun acc kv => acc ++ ',' :: '"' :: (kv.1 ++ '"' :: ':' :: emitParamValue kv.2)) []

/-- The complete JSON request body (src/bark_push.hpp lines 269-304). -/
def buildJsonBody (keys : List Str) (title message : Str) (ps : Params) : Str :=
  obr :: ("\"device_keys\":[".data ++ deviceKeysJson keys
    ++ "],".data
    ++ "\"title\":\"".data ++ escapeJson title
    ++ "\",".data
    ++ "\"body\":\"".data ++ escapeJson message
    ++ ['"']
    ++ paramsJson ps ++ [cbr])

/-- Normalization of a `url` extra parameter before encoding
(src/bark_push.hpp lines 262-267): if the map binds `url`, its value is
replaced with its normalized form. -/
def processParams (ps : Params) : Params :=
  match mapFind ps "url".data with
  | some v => mapSet ps "url".data (normalizeUrl v)
  | none => ps

/-- The error taxonomy `BarkError` of src/bark_push.hpp lines 16-25. -/
inductive BarkError
  | SUCCESS
  | CURL_INIT_FAILED
  | INVALID_URL
  | HTTP_ERROR
  | NETWORK_ERROR
  | EMPTY_RESPONSE
  | NO_DEVICES_SPECIFIED
deriving DecidableEq, Repr

/-- The mutable client state of a `BarkPush` object: device keys, server
string, whether the cURL handle exists, and the last-error/last-status
fields. -/
structure ClientState where
  device_keys : List Str
  server : Str
  curl_ok : Bool
  last_error : Str
  http_status : Int
deriving DecidableEq, Repr

/-- Outcome of one `curl_easy_perform` call, supplied to `send` as an
oracle: a transport-level failure with an error description, or a response
with an HTTP status and a body. -/
inductive TransportResult
  | fail (err : Str)
  | ok (status : Int) (body : Str)
deriving DecidableEq, Repr

/-- Observable outcome of one `send` call: the returned `BarkError`, the
state after the call, whether `curl_easy_perform` was reached, and the
request (URL and JSON body) handed to the transport when it was. -/
structure SendOutcome where
  result : BarkError
  state : ClientState
  transport_called : Bool
  request : Option (Str × Str)
deriving DecidableEq, Repr

/-- Decimal digit string of a natural number, one character per digit. -/
def natStr (n : Nat) : Str := Nat.toDigits 10 n

/-- Model of `std::to_string` on the `long` HTTP status code. -/
def intStr (i : Int) : Str :=
  if i < 0 then '-' :: natStr i.natAbs else natStr i.toNat

/-- `BarkPush::send` (src/bark_push.hpp lines 238-341).  The two
precondition checks come first (empty device list, then missing handle);
then the request URL and JSON body are built and the transport oracle is
consulted.  The `none` result marks the undefined-behaviour path (empty
server string, where the C++ calls `back()` on an empty `std::string`). -/
def send (st : ClientState) (title message : Str) (ps : Params)
    (tr : TransportResult) : Option SendOutcome :=
  let st1 : ClientState := { st with last_error := [], http_status := 0 }
  if st1.device_keys = [] then
    some { result := BarkError.NO_DEVICES_SPECIFIED,
           state := { st1 with last_error := "No device keys specified".data },
           transport_called := false, request := none }
  else if st1.curl_ok = false then
    some { result := BarkError.CURL_INIT_FAILED,
           state := { st1 with last_error := "cURL handle not initialized".data },
           transport_called := false, request := none }
  else
    match buildRequestUrl st1.server with
    | none => none
    | some url =>
      let body := buildJsonBody st1.device_keys title message (processParams ps)
      match tr with
      | TransportResult.fail e =>
        some { result := BarkError.NETWORK_ERROR,
               state := { st1 with last_error := "cURL error: ".data ++ e },
               transport_called := true, request := some (url, body) }
      | TransportResult.ok status rbody =>
        let st2 : ClientState := { st1 with http_status := status }
        if status ≠ 200 then
          let msg := "HTTP error ".data ++ intStr status ++ ", Response: ".data ++ rbody
          some { result := BarkError.HTTP_ERROR,
                 state := { st2 with last_error := msg },
                 transport_called := true, request := some (url, body) }
        else if rbody = [] then
          some { result := BarkError.EMPTY_RESPONSE,
                 state := { st2 with last_error := "Empty response from server".data },
                 transport_called := true, request := some (url, body) }
        else
          some { result := BarkError.SUCCESS,
                 state := st2,
                 transport_called := true, request := some (url, body) }

/-- The single-key constructor (src/bark_push.hpp lines 164-172): a
non-empty key is pushed, an empty one is dropped. -/
def ctorSingle (k : Str) : List Str :=
  if k = [] then [] else [k]

/-- The multi-key constructor (src/bark_push.hpp lines 174-178): the given
vector is copied verbatim. -/
def ctorMulti (ks : List Str) : List Str := ks

/-- `BarkPush::addDeviceKey` (src/bark_push.hpp lines 189-195). -/
def addDeviceKey (keys : List Str) (k : Str) : List Str :=
  if k = [] then keys else keys ++ [k]

/-- `BarkPush::clearDeviceKeys` (src/bark_push.hpp lines 197-200). -/
def clearDeviceKeys (_keys : List Str) : List Str := []

/-- One device-key operation: an `addDeviceKey` call or a
`clearDeviceKeys` call. -/
inductive KeyOp
  | add (k : Str)
  | clear
deriving DecidableEq

/-- Application of a sequence of device-key operations, first to last. -/
def applyOps (ops : List KeyOp) (keys : List Str) : List Str :=
  match ops with
  | [] => keys
  | KeyOp.add k :: rest => applyOps rest (addDeviceKey keys k)
  | KeyOp.clear :: rest => applyOps rest (clearDeviceKeys keys)

/-- Parameter-map construction of `BarkPush::sendAdvanced`
(src/bark_push.hpp lines 343-368): the optional fields are inserted when
non-empty (the `url` one normalized), `archive` and `autoCopy` always. -/
def sendAdvancedParams (url sound group level icon archive autoCopy : Str) : Params :=
  let p0 : Params := []
  let p1 := if url ≠ [] then mapSet p0 "url".data (normalizeUrl url) else p0
  let p2 := if sound ≠ [] then mapSet p1 "sound".data sound else p1
  let p3 := if group ≠ [] then mapSet p2 "group".data group else p2
  let p4 := if level ≠ [] then mapSet p3 "level".data level else p3
  let p5 := if icon ≠ [] then mapSet p4 "icon".data icon else p4
  let p6 := mapSet p5 "archive".data archive
  mapSet p6 "autoCopy".data autoCopy

/-- `BarkPush::sendAdvanced` (src/bark_push.hpp lines 343-368). -/
def sendAdvanced (st : ClientState) (title message url sound group level icon
    archive autoCopy : Str) (tr : TransportResult) : Option SendOutcome :=
  send st title message
    (sendAdvancedParams url sound group level icon archive autoCopy) tr

/-- The single-argument `BarkPush::sendUrl` overload (src/bark_push.hpp
lines 375-380): the URL is normalized once and used as both the message and
the `url` argument of `sendAdvanced`, under the fixed title `跳转链接`. -/
def sendUrl1 (st : ClientState) (url : Str) (tr : TransportResult) : Option SendOutcome :=
  let normalizedUrl := normalizeUrl url
  sendAdvanced st "跳转链接".data normalizedUrl normalizedUrl
    [] [] [] [] "1".data "0".data tr

/-- Whitespace characters of the JSON grammar (RFC 8259). -/
def isWs (c : Char) : Bool :=
  c = ' ' ∨ c = '\t' ∨ c = '\n' ∨ c = '\r'

/-- Modelled from the spec: skipping insignificant JSON whitespace. -/
def skipWs (s : Str) : Str := s.dropWhile isWs

/-- Modelled from the spec: the tail of a JSON string literal after the
opening quote.  Returns the remainder after the closing quote, `none` on a
malformed literal (bad escape, unescaped control character, missing close). -/
def jStringTail : Str → Option Str
  | [] => none
  | c :: t =>
    if c = '"' then some t
    else if c = '\\' then
      match t with
      | [] => none
      | e :: t2 =>
        if e = '"' ∨ e = '\\' ∨ e = '/' ∨ e = 'b' ∨ e = 'f' ∨ e = 'n' ∨ e = 'r' ∨ e = 't' then
          jStringTail t2
        else if e = 'u' then
          match t2 with
          | a :: b :: x :: d :: t3 =>
            if (hexVal? a).isSome ∧ (hexVal? b).isSome ∧ (hexVal? x).isSome ∧ (hexVal? d).isSome then
              jStringTail t3
            else none
          | _ => none
        else none
    else if 32 ≤ c.toNat then jStringTail t
    else none

/-- Modelled from the spec: the fractional part of a JSON number (empty or a
dot followed by at least one digit). -/
def jFrac : Str → Option Str
  | '.' :: t =>
    if t.takeWhile Char.isDigit ≠ [] then some (t.dropWhile Char.isDigit) else none
  | s => some s

/-- Modelled from the spec: the exponent part of a JSON number (empty or
`e`/`E`, optional sign, at least one digit). -/
def jExp : Str → Option Str
  | [] => some []
  | c :: t =>
    if c = 'e' ∨ c = 'E' then
      let t2 := match t with
        | c2 :: t3 => if c2 = '+' ∨ c2 = '-' then t3 else t
        | [] => t
      if t2.takeWhile Char.isDigit ≠ [] then some (t2.dropWhile Char.isDigit) else none
    else some (c :: t)

/-- Modelled from the spec: a JSON number per RFC 8259 (optional minus, `0`
or a digit-run without leading zero, optional fraction, optional
exponent). -/
def jNumber (s : Str) : Option Str :=
  let s1 := match s with
    | '-' :: t => t
    | _ => s
  match s1 with
  | '0' :: r => (jFrac r).bind jExp
  | c :: r => if c.isDigit then (jFrac (r.dropWhile Char.isDigit)).bind jExp else none
  | [] => none

/-- Parser modes for the fuel-indexed JSON validator: a value, the member
list of an object (after the opening brace, first key at hand), or the
element list of an array. -/
inductive PMode
  | val
  | members
  | elements
deriving DecidableEq

/-- Modelled from the spec: recursive-descent JSON validator (RFC 8259),
fuel-indexed so that recursion is structural.  Each call consumes one JSON
production and returns the remaining input, or `none` on a syntax error. -/
def pj : Nat → PMode → Str → Option Str
  | 0, _, _ => none
  | Nat.succ n, PMode.val, s =>
    match s with
    | [] => none
    | c :: t =>
      if c = '"' then jStringTail t
      else if c = obr then
        match skipWs t with
        | c2 :: t2 => if c2 = cbr then some t2 else pj n PMode.members (c2 :: t2)
        | [] => none
      else if c = '[' then
        match skipWs t with
        | c2 :: t2 => if c2 = ']' then some t2 else pj n PMode.elements (c2 :: t2)
        | [] => none
      else
        match s with
        | 't' :: 'r' :: 'u' :: 'e' :: r => some r
        | 'f' :: 'a' :: 'l' :: 's' :: 'e' :: r => some r
        | 'n' :: 'u' :: 'l' :: 'l' :: r => some r
        | _ => jNumber s
  | Nat.succ n, PMode.members, s =>
    match s with
    | [] => none
    | c :: t =>
      if c = '"' then
        match jStringTail t with
        | none => none
        | some r1 =>
          match skipWs r1 with
          | c2 :: t2 =>
            if c2 = ':' then
              match pj n PMode.val (skipWs t2) with
              | none => none
              | some r2 =>
                match skipWs r2 with
                | c3 :: t3 =>
                  if c3 = ',' then pj n PMode.members (skipWs t3)
                  else if c3 = cbr then some t3
                  else none
                | [] => none
            else none
          | [] => none
      else none
  | Nat.succ n, PMode.elements, s =>
    match pj n PMode.val s with
    | none => none
    | some r =>
      match skipWs r with
      | c :: t =>
        if c = ',' then pj n PMode.elements (skipWs t)
        else if c = ']' then some t
        else none
      | [] => none

/-- Modelled from the spec: a byte string is valid JSON when it parses as
one JSON value surrounded only by whitespace. -/
def isValidJson (s : Str) : Bool :=
  match pj (s.length + 1) PMode.val (skipWs s) with
  | some r => decide (skipWs r = [])
  | none => false

/-- The request URL of a send with a non-empty server string (a default
value is supplied for the undefined empty-server case so that the statement
of the transport theorems needs no existential). -/
def requestUrlD (server : Str) : Str := (buildRequestUrl server).getD []

/-- An optional sign, as the claim describes it: nothing, a minus, or a
plus. -/
def SignOpt (s : Str) : Prop := s = [] ∨ s = ['-'] ∨ s = ['+']

/-- The mantissa of the claim's numeric pattern: a non-empty digit run, or
a possibly-empty digit run, a dot, and a non-empty digit run. -/
def MantissaOk (m : Str) : Prop :=
  (m ≠ [] ∧ m.all Char.isDigit = true) ∨
  (∃ i f, m = i ++ '.' :: f ∧ i.all Char.isDigit = true ∧ f ≠ [] ∧ f.all Char.isDigit = true)

/-- The optional exponent of the claim's numeric pattern: nothing, or
`e`/`E`, an optional sign, and a non-empty digit run. -/
def ExpoOk (e : Str) : Prop :=
  e = [] ∨ ∃ ec es ed, (ec = 'e' ∨ ec = 'E') ∧ SignOpt es ∧ ed ≠ [] ∧
    ed.all Char.isDigit = true ∧ e = ec :: (es ++ ed)

/-- Declarative form of the numeric pattern named by the claim: an optional
sign, a mantissa with digits and an optional fractional part, and an
optional exponent. -/
def NumLit (v : Str) : Prop :=
  ∃ sgn m e, SignOpt sgn ∧ MantissaOk m ∧ ExpoOk e ∧ v = sgn ++ m ++ e

/-- Helper: appending an empty-free singleton keeps a key list empty-free. -/
theorem applyOps_no_empty (ops : List KeyOp) (keys : List Str)
    (h : ([] : Str) ∉ keys) : ([] : Str) ∉ applyOps ops keys := by
  induction ops generalizing keys with
  | nil => simpa [applyOps] using h
  | cons op rest ih =>
    cases op with
    | add k =>
      simp only [applyOps]
      apply ih
      by_cases hk : k = []
      · simpa [addDeviceKey, hk] using h
      · simp only [addDeviceKey, hk, if_neg]
        intro hmem
        rcases List.mem_append.mp hmem with h1 | h2
        · exact h h1
        · exact hk (List.mem_singleton.mp h2).symm
    | clear =>
      simp only [applyOps]
      apply ih
      simp [clearDeviceKeys]

/-- C1 counterexample: the multi-key constructor copies the given vector
verbatim, so constructing from a vector holding an empty string leaves an
empty string in the device-identifier sequence (with no further
`addDeviceKey`/`clearDeviceKeys` calls), contradicting the claimed
invariant. -/
theorem C1_counterexample :
    ([] : Str) ∈ applyOps [] (ctorMulti [([] : Str)]) := by
  simp [applyOps, ctorMulti]

/-- C1 (amended): `addDeviceKey` with an empty key is a no-op; after
single-key construction and any sequence of `addDeviceKey` /
`clearDeviceKeys` calls the device-identifier sequence never contains an
empty string; the same holds for the multi-key constructor provided the
initial vector itself contains no empty string (the constructor copies the
vector verbatim). -/
theorem C1_deviceKeyInvariant :
    (∀ keys, addDeviceKey keys [] = keys) ∧
    (∀ k ops, ([] : Str) ∉ applyOps ops (ctorSingle k)) ∧
    (∀ ks ops, ([] : Str) ∉ ks → ([] : Str) ∉ applyOps ops (ctorMulti ks)) := by
  refine ⟨fun keys => by simp [addDeviceKey], ?_, ?_⟩
  · intro k ops
    apply applyOps_no_empty
    by_cases hk : k = []
    · simp [ctorSingle, hk]
    · simp only [ctorSingle, if_neg hk, List.mem_singleton]
      exact fun h => hk h.symm
  · intro ks ops h
    exact applyOps_no_empty ops ks h

/-- C1 witness: a concrete run through the amended invariant. -/
theorem C1_witness :
    ([] : Str) ∉ applyOps [KeyOp.add "a".data, KeyOp.clear, KeyOp.add "b".data]
      (ctorMulti ["k".data]) :=
  C1_deviceKeyInvariant.2.2 ["k".data]
    [KeyOp.add "a".data, KeyOp.clear, KeyOp.add "b".data] (by decide)

/-- C3: with an empty device-identifier sequence, `send` returns
`NO_DEVICES_SPECIFIED`, stores the reason, leaves the status at 0, and
never reaches the transport (the `request` component is `none` and
`transport_called` is `false`).  The statement quantifies over the whole
state, in particular over `curl_ok`, so the check precedes the
transport-handle check. -/
theorem C3_noDevices (st : ClientState) (title message : Str) (ps : Params)
    (tr : TransportResult) (h : st.device_keys = []) :
    send st title message ps tr =
      some ⟨BarkError.NO_DEVICES_SPECIFIED,
        { st with last_error := "No device keys specified".data, http_status := 0 },
        false, none⟩ := by
  simp [send, h]

/-- C3 witness: concrete run with `curl_ok = false`, showing the
device check fires first. -/
theorem C3_witness :
    send ⟨[], "https://api.day.app/".data, false, "stale".data, 7⟩
        "t".data "m".data [] (TransportResult.ok 200 "ok".data) =
      some ⟨BarkError.NO_DEVICES_SPECIFIED,
        ⟨[], "https://api.day.app/".data, false, "No device keys specified".data, 0⟩,
        false, none⟩ :=
  C3_noDevices _ _ _ _ _ rfl

/-- Helper: taking the pattern length from a pattern-prefixed list gives the
pattern back, stated with an explicit numeral for the length. -/
theorem take_here (p r : Str) (n : Nat) (hn : p.length = n) : (p ++ r).take n = p := by
  subst hn
  exact List.take_left p r

/-- Helper: a list whose `take` at the pattern length equals the pattern is
exactly the pattern followed by a remainder, and conversely. -/
theorem take_eq_iff_append (p l : Str) : l.take p.length = p ↔ ∃ r, l = p ++ r := by
  constructor
  · intro h
    refine ⟨l.drop p.length, ?_⟩
    conv_lhs => rw [← List.take_append_drop p.length l]
    rw [h]
  · rintro ⟨r, rfl⟩
    exact List.take_left p r

/-- Helper: a successful `take`-comparison with a pattern bounds the length. -/
theorem take_len_le (n : Nat) (p l : Str) (hp : p.length = n) (h : l.take n = p) :
    n ≤ l.length := by
  have hlen := congrArg List.length h
  simp only [List.length_take, hp] at hlen
  omega

/-- Helper: refutation of a prefix decomposition from a `take` mismatch. -/
theorem no_append_of_take_ne (p l : Str) (h : l.take p.length ≠ p) :
    ¬ ∃ r, l = p ++ r :=
  fun he => h ((take_eq_iff_append p l).mpr he)

/-- C7: `normalizeUrl` returns the input unchanged exactly on the empty
string and on strings beginning with `http://` or `https://`, and prepends
`https://` to everything else. -/
theorem C7_normalizeUrl (url : Str) :
    (url = [] → normalizeUrl url = url) ∧
    ((∃ r, url = "http://".data ++ r) → normalizeUrl url = url) ∧
    ((∃ r, url = "https://".data ++ r) → normalizeUrl url = url) ∧
    (url ≠ [] → (¬ ∃ r, url = "http://".data ++ r) →
      (¬ ∃ r, url = "https://".data ++ r) →
      normalizeUrl url = "https://".data ++ url) := by
  refine ⟨fun h => by simp [normalizeUrl, h], ?_, ?_, ?_⟩
  · rintro ⟨r, rfl⟩
    have h7 : (("http://".data ++ r).take 7) = "http://".data := take_here _ r 7 rfl
    have hlen : 7 ≤ ("http://".data ++ r).length := take_len_le 7 "http://".data _ (by decide) h7
    simp [normalizeUrl, h7, hlen]
  · rintro ⟨r, rfl⟩
    have h8 : (("https://".data ++ r).take 8) = "https://".data := take_here _ r 8 rfl
    have hlen : 8 ≤ ("https://".data ++ r).length := take_len_le 8 "https://".data _ (by decide) h8
    have h7 : (("https://".data ++ r).take 7) = "https:/".data := by
      have h1 : ((("https://".data ++ r).take 8).take 7) = ("https://".data ++ r).take 7 := by
        rw [List.take_take]
        norm_num
      rw [← h1, h8]
      decide
    simp [normalizeUrl, h7, h8, hlen]
  · intro hne h1 h2
    have t7 : url.take 7 ≠ "http://".data := by
      intro h
      exact h1 ((take_eq_iff_append "http://".data url).mp h)
    have t8 : url.take 8 ≠ "https://".data := by
      intro h
      exact h2 ((take_eq_iff_append "https://".data url).mp h)
    simp [normalizeUrl, hne, t7, t8]

/-- C7 witness: a bare domain gets the `https://` scheme prepended. -/
theorem C7_witness : normalizeUrl "example.com".data = "https://example.com".data := by
  have h := (C7_normalizeUrl "example.com".data).2.2.2 (by decide)
    (no_append_of_take_ne _ _ (by decide)) (no_append_of_take_ne _ _ (by decide))
  simpa using h

/-- Helper: a string that already starts with `http://` is a fixed point of
`normalizeUrl`. -/
theorem norm_fix_of_http (y : Str) (h : y.take 7 = "http://".data) :
    normalizeUrl y = y := by
  have hlen : 7 ≤ y.length := take_len_le 7 "http://".data y (by decide) h
  have hne : y ≠ [] := by
    intro he
    rw [he] at h
    exact absurd h (by decide)
  simp [normalizeUrl, hne, h, hlen]

/-- Helper: a string that already starts with `https://` is a fixed point of
`normalizeUrl`. -/
theorem norm_fix_of_https (y : Str) (h : y.take 8 = "https://".data) :
    normalizeUrl y = y := by
  have hlen : 8 ≤ y.length := take_len_le 8 "https://".data y (by decide) h
  have hne : y ≠ [] := by
    intro he
    rw [he] at h
    exact absurd h (by decide)
  have h7 : y.take 7 = "https:/".data := by
    have h1 : ((y.take 8).take 7) = y.take 7 := by
      rw [List.take_take]
      norm_num
    rw [← h1, h]
    decide
  have h7ne : ¬ (7 ≤ y.length ∧ y.take 7 = "http://".data) := by
    rintro ⟨-, hh⟩
    rw [h7] at hh
    exact absurd hh (by decide)
  simp only [normalizeUrl, if_neg hne]
  rw [if_neg h7ne, if_pos ⟨hlen, h⟩]

/-- Helper: `normalizeUrl` is idempotent. -/
theorem normalizeUrl_idem (x : Str) : normalizeUrl (normalizeUrl x) = normalizeUrl x := by
  by_cases hx : x = []
  · simp [normalizeUrl, hx]
  by_cases h1 : 7 ≤ x.length ∧ x.take 7 = "http://".data
  · have hfix : normalizeUrl x = x := norm_fix_of_http x h1.2
    rw [hfix, hfix]
  by_cases h2 : 8 ≤ x.length ∧ x.take 8 = "https://".data
  · have hfix : normalizeUrl x = x := norm_fix_of_https x h2.2
    rw [hfix, hfix]
  have hval : normalizeUrl x = "https://".data ++ x := by
    simp only [normalizeUrl, if_neg hx, if_neg h1, if_neg h2]
  rw [hval]
  exact norm_fix_of_https _ (take_here "https://".data x 8 rfl)

/-- C8: URL normalization is idempotent. -/
theorem C8_normalizeIdem (x : Str) : normalizeUrl (normalizeUrl x) = normalizeUrl x :=
  normalizeUrl_idem x

/-- C4 counterexample: with the empty server base URL the code calls
`std::string::back()` on an empty string, which is undefined behaviour; the
construction is not total, so no URL is produced. -/
theorem C4_counterexample : ¬ ∃ u, buildRequestUrl ([] : Str) = some u := by
  simp [buildRequestUrl]

/-- C4 (amended): for every non-empty server base URL the constructed
request URL is the base followed by `push`, with a `/` separator inserted
exactly when the base does not already end in `/`; for the empty base the
code reads `back()` of an empty string, which is undefined behaviour. -/
theorem C4_buildRequestUrl (server : Str) (h : server ≠ []) :
    ((∃ p, server = p ++ ['/']) → buildRequestUrl server = some (server ++ "push".data)) ∧
    ((¬ ∃ p, server = p ++ ['/']) →
      buildRequestUrl server = some (server ++ '/' :: "push".data)) := by
  rcases hr : server.reverse with _ | ⟨c, t⟩
  · exact absurd (by simpa using congrArg List.reverse hr) h
  have hs : server = t.reverse ++ [c] := by
    have := congrArg List.reverse hr
    simpa using this
  constructor
  · rintro ⟨p, hp⟩
    have hc : c = '/' := by
      have h1 : server.getLast? = some '/' := by
        rw [hp]
        exact List.getLast?_concat _
      have h2 : server.getLast? = some c := by
        rw [hs]
        exact List.getLast?_concat _
      rw [h1] at h2
      exact (Option.some_inj.mp h2).symm
    simp [buildRequestUrl, hr, hc]
  · intro hnp
    have hc : c ≠ '/' := by
      intro hc
      exact hnp ⟨t.reverse, by rw [hs, hc]⟩
    simp [buildRequestUrl, hr, hc]

/-- C4 witness: the default server string ends in `/`, so no separator is
inserted. -/
theorem C4_witness :
    buildRequestUrl "https://api.day.app/".data =
      some ("https://api.day.app/".data ++ "push".data) :=
  (C4_buildRequestUrl "https://api.day.app/".data (by decide)).1
    ⟨"https://api.day.app".data, by decide⟩

/-- C2: interpretation of one send attempt that reaches the transport
(non-empty device list, live handle, non-empty server).  A transport
failure yields `NETWORK_ERROR` with the status still 0; a response with a
status other than 200 yields `HTTP_ERROR` with a diagnostic holding the
decimal status and the raw body; a 200 response with an empty body yields
`EMPTY_RESPONSE`; a 200 response with a non-empty body yields `SUCCESS`
with an empty error detail.  The final conjunct shows that the incoming
`last_error`/`http_status` fields are overwritten: the outcome does not
depend on them. -/
theorem C2_sendOutcomes (st : ClientState) (title message : Str) (ps : Params)
    (h1 : st.device_keys ≠ []) (h2 : st.curl_ok = true) (h3 : st.server ≠ []) :
    (∀ e, send st title message ps (TransportResult.fail e) =
      some ⟨BarkError.NETWORK_ERROR,
        { st with last_error := "cURL error: ".data ++ e, http_status := 0 },
        true,
        some (requestUrlD st.server,
          buildJsonBody st.device_keys title message (processParams ps))⟩) ∧
    (∀ status rbody, status ≠ 200 →
      send st title message ps (TransportResult.ok status rbody) =
      some ⟨BarkError.HTTP_ERROR,
        { st with
            last_error := "HTTP error ".data ++ intStr status ++ ", Response: ".data ++ rbody,
            http_status := status },
        true,
        some (requestUrlD st.server,
          buildJsonBody st.device_keys title message (processParams ps))⟩) ∧
    (send st title message ps (TransportResult.ok 200 []) =
      some ⟨BarkError.EMPTY_RESPONSE,
        { st with last_error := "Empty response from server".data, http_status := 200 },
        true,
        some (requestUrlD st.server,
          buildJsonBody st.device_keys title message (processParams ps))⟩) ∧
    (∀ rbody, rbody ≠ [] →
      send st title message ps (TransportResult.ok 200 rbody) =
      some ⟨BarkError.SUCCESS,
        { st with last_error := [], http_status := 200 },
        true,
        some (requestUrlD st.server,
          buildJsonBody st.device_keys title message (processParams ps))⟩) ∧
    (∀ e0 s0 tr, send { st with last_error := e0, http_status := s0 } title message ps tr =
      send st title message ps tr) := by
  rcases hr : st.server.reverse with _ | ⟨c, t⟩
  · exact absurd (by simpa using congrArg List.reverse hr) h3
  have hurl : buildRequestUrl st.server = some (requestUrlD st.server) := by
    simp [buildRequestUrl, requestUrlD, hr]
  refine ⟨?_, ?_, ?_, ?_, ?_⟩
  · intro e
    simp [send, h1, h2, hurl]
  · intro status rbody hst
    simp [send, h1, h2, hurl, hst]
  · simp [send, h1, h2, hurl]
  · intro rbody hb
    simp [send, h1, h2, hurl, hb]
  · intro e0 s0 tr
    simp [send, h1, h2]

/-- C2 witness: the scenario of §8 of the spec, a 500 response with body
`server error` on the standard client. -/
theorem C2_witness :
    send (⟨["key123".data], "https://api.day.app/".data, true, [], 0⟩ : ClientState)
        "Hi".data "there".data [] (TransportResult.ok 500 "server error".data) =
      some ⟨BarkError.HTTP_ERROR,
        (⟨["key123".data], "https://api.day.app/".data, true,
          "HTTP error ".data ++ intStr 500 ++ ", Response: ".data ++ "server error".data,
          500⟩ : ClientState),
        true,
        some (requestUrlD "https://api.day.app/".data,
          buildJsonBody ["key123".data] "Hi".data "there".data (processParams []))⟩ :=
  ((C2_sendOutcomes _ "Hi".data "there".data [] (by decide) rfl (by decide)).2.1)
    500 "server error".data (by decide)

/-- Helper: `hexVal?` inverts `hexDigit` on the digit range. -/
theorem hexVal?_hexDigit : ∀ n < 16, hexVal? (hexDigit n) = some n := by decide

/-- Helper: decoding the escape sequence produced for one character yields
that character back in front of the decoded remainder. -/
theorem unescape_escapeChar (c : Char) (t : Str) :
    unescapeJson (escapeChar c ++ t) = (unescapeJson t).map (List.cons c) := by
  by_cases h1 : c = '"'
  · subst h1
    rw [unescapeJson.eq_def]
    simp [escapeChar]
  by_cases h2 : c = '\\'
  · subst h2
    rw [unescapeJson.eq_def]
    simp [escapeChar]
  by_cases h3 : c = Char.ofNat 8
  · subst h3
    rw [unescapeJson.eq_def]
    simp [escapeChar]
  by_cases h4 : c = Char.ofNat 12
  · subst h4
    rw [unescapeJson.eq_def]
    simp [escapeChar]
  by_cases h5 : c = '\n'
  · subst h5
    rw [unescapeJson.eq_def]
    simp [escapeChar]
  by_cases h6 : c = '\r'
  · subst h6
    rw [unescapeJson.eq_def]
    simp [escapeChar]
  by_cases h7 : c = '\t'
  · subst h7
    rw [unescapeJson.eq_def]
    simp [escapeChar]
  by_cases h8 : c.toNat ≤ 31
  · have hesc : escapeChar c =
        ['\\', 'u', '0', '0', hexDigit (c.toNat / 16), hexDigit (c.toNat % 16)] := by
      simp [escapeChar, h1, h2, h3, h4, h5, h6, h7, h8]
    have hv1 : hexVal? (hexDigit (c.toNat / 16)) = some (c.toNat / 16) :=
      hexVal?_hexDigit _ (by omega)
    have hv2 : hexVal? (hexDigit (c.toNat % 16)) = some (c.toNat % 16) :=
      hexVal?_hexDigit _ (Nat.mod_lt _ (by norm_num))
    have hval : hexVal? '0' = some 0 := by decide
    rw [hesc, unescapeJson.eq_def]
    simp [hv1, hv2, hval, Nat.div_add_mod, Char.ofNat_toNat]
  · have hesc : escapeChar c = [c] := by
      simp [escapeChar, h1, h2, h3, h4, h5, h6, h7, h8]
    rw [hesc, unescapeJson.eq_def]
    simp [h2]

/-- C6: the escaping maps the seven special characters to their
two-character escapes, every other control character (code point ≤ 0x1F)
to a lowercase zero-padded `\u00XX` sequence, and passes every other
character through; standard JSON unescaping of the escaped form of any
string yields the original string back. -/
theorem C6_escapeRoundTrip :
    (∀ s : Str, unescapeJson (escapeJson s) = some s) ∧
    escapeChar '"' = ['\\', '"'] ∧
    escapeChar '\\' = ['\\', '\\'] ∧
    escapeChar (Char.ofNat 8) = ['\\', 'b'] ∧
    escapeChar (Char.ofNat 12) = ['\\', 'f'] ∧
    escapeChar '\n' = ['\\', 'n'] ∧
    escapeChar '\r' = ['\\', 'r'] ∧
    escapeChar '\t' = ['\\', 't'] ∧
    escapeChar (Char.ofNat 1) = ['\\', 'u', '0', '0', '0', '1'] ∧
    escapeChar (Char.ofNat 31) = ['\\', 'u', '0', '0', '1', 'f'] ∧
    escapeChar 'A' = ['A'] ∧
    escapeChar (Char.ofNat 0x7F) = [Char.ofNat 0x7F] := by
  refine ⟨?_, by decide, by decide, by decide, by decide, by decide, by decide,
    by decide, by decide, by decide, by decide, by decide⟩
  intro s
  induction s with
  | nil => rfl
  | cons c t ih =>
    show unescapeJson (escapeChar c ++ escapeJson t) = some (c :: t)
    rw [unescape_escapeChar, ih]
    rfl

/-- Helper: normalization never turns a non-empty URL into an empty one. -/
theorem normalizeUrl_ne_nil (url : Str) (h : url ≠ []) : normalizeUrl url ≠ [] := by
  unfold normalizeUrl
  split_ifs with h1 h2 h3
  · exact absurd h1 h
  · exact h
  · exact h
  · simp

/-- C9 (amended): for every non-empty URL, the single-argument `sendUrl` is
the send with the fixed `跳转链接` title, the normalized URL as both the
message body and the `url` parameter (the second normalization inside
`sendAdvanced` changes nothing, by idempotence), and `archive = "1"`,
`autoCopy = "0"`.  For the empty URL the `url` parameter is omitted
instead (see the counterexample). -/
theorem C9_sendUrl (st : ClientState) (url : Str) (tr : TransportResult)
    (h : url ≠ []) :
    sendUrl1 st url tr =
      send st "跳转链接".data (normalizeUrl url)
        [("archive".data, "1".data), ("autoCopy".data, "0".data),
          ("url".data, normalizeUrl url)] tr := by
  have hn : normalizeUrl url ≠ [] := normalizeUrl_ne_nil url h
  have hi : normalizeUrl (normalizeUrl url) = normalizeUrl url := normalizeUrl_idem url
  show send st "跳转链接".data (normalizeUrl url)
      (sendAdvancedParams (normalizeUrl url) [] [] [] [] "1".data "0".data) tr = _
  rw [show sendAdvancedParams (normalizeUrl url) [] [] [] [] "1".data "0".data =
      mapSet (mapSet (mapSet [] "url".data (normalizeUrl (normalizeUrl url)))
        "archive".data "1".data) "autoCopy".data "0".data by
    simp [sendAdvancedParams, hn]]
  rw [hi]
  rfl

/-- C9 witness: the spec scenario `sendUrl("example.com/page")`. -/
theorem C9_witness :
    sendUrl1 (⟨["key123".data], "https://api.day.app/".data, true, [], 0⟩ : ClientState)
        "example.com/page".data (TransportResult.ok 200 "ok".data) =
      send (⟨["key123".data], "https://api.day.app/".data, true, [], 0⟩ : ClientState)
        "跳转链接".data (normalizeUrl "example.com/page".data)
        [("archive".data, "1".data), ("autoCopy".data, "0".data),
          ("url".data, normalizeUrl "example.com/page".data)]
        (TransportResult.ok 200 "ok".data) :=
  C9_sendUrl _ "example.com/page".data _ (by decide)

/-- C9 counterexample: at the empty URL the claim fails: `sendUrl("")`
omits the `url` parameter entirely, while the claim prescribes a `url`
parameter equal to the normalized (still empty) URL; the two requests have
different JSON bodies, so the outcomes differ. -/
theorem C9_counterexample :
    sendUrl1 (⟨["k".data], "https://api.day.app/".data, true, [], 0⟩ : ClientState)
        [] (TransportResult.ok 200 "ok".data) ≠
      send (⟨["k".data], "https://api.day.app/".data, true, [], 0⟩ : ClientState)
        "跳转链接".data (normalizeUrl [])
        [("archive".data, "1".data), ("autoCopy".data, "0".data),
          ("url".data, normalizeUrl [])]
        (TransportResult.ok 200 "ok".data) := by
  decide

/-- C10 counterexample: the claim's necessity direction fails.  The key
`x":1,"y` contains a double quote, yet the produced body
`{"device_keys":["k"],"title":"t","body":"m","x":1,"y":"v"}` is valid
JSON (the injected text happens to close and reopen the quoting
coherently). -/
theorem C10_counterexample :
    isValidJson (buildJsonBody ["k".data] "t".data "m".data
        [("x\":1,\"y".data, "v".data)]) = true ∧
    '"' ∈ "x\":1,\"y".data := by
  constructor
  · decide
  · decide

/-- C10 (amended): extra-parameter keys are emitted into the body verbatim
and unescaped (the body equals its prefix, the raw key, and its suffix);
a key containing a double quote can make the body invalid JSON (key `a"`),
but not every such key does (key `x":1,"y` still yields valid JSON), so
clean keys are sufficient but not necessary for validity. -/
theorem C10_keysVerbatim :
    isValidJson (buildJsonBody ["k".data] "t".data "m".data
        [("a\"".data, "v".data)]) = false ∧
    buildJsonBody ["k".data] "t".data "m".data [("x\":1,\"y".data, "v".data)] =
      (buildJsonBody ["k".data] "t".data "m".data
          [("x\":1,\"y".data, "v".data)]).take 45
        ++ "x\":1,\"y".data
        ++ (buildJsonBody ["k".data] "t".data "m".data
            [("x\":1,\"y".data, "v".data)]).drop 52 ∧
    isValidJson (buildJsonBody ["k".data] "t".data "m".data
        [("clean".data, "v".data)]) = true := by
  refine ⟨by decide, by decide, by decide⟩

/-- Helper: the digit run taken by `takeWhile` satisfies the predicate. -/
theorem takeWhile_all_sat (p : Char → Bool) (l : Str) : (l.takeWhile p).all p = true := by
  induction l with
  | nil => rfl
  | cons a t ih =>
    by_cases ha : p a
    · simp [List.takeWhile_cons, ha, ih]
    · simp [List.takeWhile_cons, ha]

/-- Helper: on a list every element of which satisfies the predicate,
`takeWhile` is the identity and `dropWhile` gives the empty list. -/
theorem takeWhile_of_all (p : Char → Bool) (l : Str) (h : l.all p = true) :
    l.takeWhile p = l ∧ l.dropWhile p = [] := by
  induction l with
  | nil => exact ⟨rfl, rfl⟩
  | cons a t ih =>
    simp only [List.all_cons, Bool.and_eq_true] at h
    have := ih h.2
    simp [List.takeWhile_cons, List.dropWhile_cons, h.1, this.1, this.2]

/-- Helper: `takeWhile` and `dropWhile` pass over a fully-satisfying
prefix. -/
theorem takeWhile_append_all (p : Char → Bool) (d r : Str) (hd : d.all p = true) :
    (d ++ r).takeWhile p = d ++ r.takeWhile p ∧ (d ++ r).dropWhile p = r.dropWhile p := by
  induction d with
  | nil => exact ⟨rfl, rfl⟩
  | cons a t ih =>
    simp only [List.all_cons, Bool.and_eq_true] at hd
    have := ih hd.2
    simp [List.takeWhile_cons, List.dropWhile_cons, hd.1, this.1, this.2]

/-- Helper: `takeWhile` and `dropWhile` stop at a failing head. -/
theorem takeWhile_cons_neg (p : Char → Bool) (c : Char) (t : Str) (hc : p c = false) :
    (c :: t).takeWhile p = [] ∧ (c :: t).dropWhile p = c :: t := by
  simp [List.takeWhile_cons, List.dropWhile_cons, hc]

/-- Helper: an empty `dropWhile` means every element satisfied the
predicate. -/
theorem all_of_dropWhile_nil (p : Char → Bool) (l : Str) (h : l.dropWhile p = []) :
    l.all p = true := by
  induction l with
  | nil => rfl
  | cons a t ih =>
    by_cases ha : p a
    · rw [List.dropWhile_cons, if_pos ha] at h
      simp [List.all_cons, ha, ih h]
    · rw [List.dropWhile_cons, if_neg ha] at h
      exact absurd h (by simp)

/-- Helper: a digit character is not a sign character. -/
theorem digit_not_sign (c : Char) (h : c.isDigit = true) : ¬ (c = '-' ∨ c = '+') := by
  rintro (rfl | rfl) <;> exact absurd h (by decide)

/-- Helper: an exponent marker is not a digit. -/
theorem expMark_not_digit (c : Char) (h : c = 'e' ∨ c = 'E') : c.isDigit = false := by
  rcases h with rfl | rfl <;> decide

/-- Helper: `stripSign` removes exactly an optional-sign prefix when the
remainder does not itself begin with a sign. -/
theorem stripSign_append (sgn r : Str) (hs : SignOpt sgn)
    (hr : ∀ c t, r = c :: t → ¬ (c = '-' ∨ c = '+')) : stripSign (sgn ++ r) = r := by
  rcases hs with rfl | rfl | rfl
  · rcases r with _ | ⟨c, t⟩
    · rfl
    · have := hr c t rfl
      simp [stripSign, this]
  · simp [stripSign]
  · simp [stripSign]

/-- Helper: every string splits as an optional sign followed by its
`stripSign`. -/
theorem stripSign_decomp (v : Str) : ∃ sgn, SignOpt sgn ∧ v = sgn ++ stripSign v := by
  rcases v with _ | ⟨c, t⟩
  · exact ⟨[], Or.inl rfl, rfl⟩
  · by_cases hc : c = '-' ∨ c = '+'
    · refine ⟨[c], ?_, ?_⟩
      · rcases hc with rfl | rfl
        · exact Or.inr (Or.inl rfl)
        · exact Or.inr (Or.inr rfl)
      · simp [stripSign, hc]
    · exact ⟨[], Or.inl rfl, by simp [stripSign, hc]⟩

/-- Helper: under `ExpoOk`, the exponent part starts with a non-digit (or
is empty), so a digit scan does not enter it. -/
theorem expo_head (e : Str) (he : ExpoOk e) :
    e.takeWhile Char.isDigit = [] ∧ e.dropWhile Char.isDigit = e := by
  rcases he with rfl | ⟨ec, es, ed, hec, -, -, -, rfl⟩
  · exact ⟨rfl, rfl⟩
  · exact takeWhile_cons_neg _ _ _ (expMark_not_digit ec hec)

/-- Helper: the exponent matcher agrees with the declarative exponent
grammar. -/
theorem expTail_iff (e : Str) : expTail e = true ↔ ExpoOk e := by
  constructor
  · intro h
    rcases he : e with _ | ⟨c, t⟩
    · exact Or.inl rfl
    · subst he
      rw [expTail] at h
      by_cases hc : c = 'e' ∨ c = 'E'
      · rw [if_pos hc, Bool.and_eq_true, decide_eq_true_iff, decide_eq_true_iff] at h
        obtain ⟨h1, h2⟩ := h
        have hall : (stripSign t).all Char.isDigit = true := all_of_dropWhile_nil _ _ h2
        have hne : stripSign t ≠ [] := by
          intro hn
          rw [hn] at h1
          exact h1 rfl
        obtain ⟨es, hses, ht⟩ := stripSign_decomp t
        exact Or.inr ⟨c, es, stripSign t, hc, hses, hne, hall, by rw [← ht]⟩
      · rw [if_neg hc] at h
        exact absurd h (by simp)
  · intro he
    rcases he with rfl | ⟨ec, es, ed, hec, hses, hne, hall, rfl⟩
    · rfl
    · rw [expTail, if_pos hec]
      have hstrip : stripSign (es ++ ed) = ed := by
        apply stripSign_append es ed hses
        intro c t hct hsign
        have : c.isDigit = true := by
          rw [hct, List.all_cons, Bool.and_eq_true] at hall
          exact hall.1
        exact digit_not_sign c this hsign
      rw [hstrip]
      have := takeWhile_of_all Char.isDigit ed hall
      simp [this.1, this.2, hne]

/-- Helper: evaluation of the matcher when the digit scan stops at a dot. -/
theorem isNumLit_eval_dot (v r2 : Str)
    (h : (stripSign v).dropWhile Char.isDigit = '.' :: r2) :
    isNumLit v =
      (decide (r2.takeWhile Char.isDigit ≠ []) && expTail (r2.dropWhile Char.isDigit)) := by
  unfold isNumLit
  rw [h]
  rfl

/-- Helper: evaluation of the matcher when the digit scan stops anywhere
other than at a dot. -/
theorem isNumLit_eval_other (v : Str)
    (h : ∀ r2, (stripSign v).dropWhile Char.isDigit ≠ '.' :: r2) :
    isNumLit v =
      (decide ((stripSign v).takeWhile Char.isDigit ≠ []) &&
        expTail ((stripSign v).dropWhile Char.isDigit)) := by
  unfold isNumLit
  split
  · next r2 heq => exact absurd heq (h r2)
  · rfl

/-- Helper: soundness of the matcher against the declarative grammar. -/
theorem isNumLit_sound (v : Str) (h : isNumLit v = true) : NumLit v := by
  obtain ⟨sgn, hsgn, hv⟩ := stripSign_decomp v
  have hsplit : (stripSign v).takeWhile Char.isDigit ++ (stripSign v).dropWhile Char.isDigit
      = stripSign v := List.takeWhile_append_dropWhile _ _
  rcases hd : (stripSign v).dropWhile Char.isDigit with _ | ⟨c, r2⟩
  · have heval := isNumLit_eval_other v (by intro r2 hc; rw [hd] at hc; exact List.noConfusion hc)
    rw [heval, hd, Bool.and_eq_true, decide_eq_true_iff] at h
    obtain ⟨h1, -⟩ := h
    have hself : (stripSign v).takeWhile Char.isDigit = stripSign v := by
      conv_rhs => rw [← hsplit, hd]
      rw [List.append_nil]
    refine ⟨sgn, (stripSign v).takeWhile Char.isDigit, [], hsgn,
      Or.inl ⟨h1, takeWhile_all_sat Char.isDigit (stripSign v)⟩, Or.inl rfl, ?_⟩
    rw [List.append_nil, hself]
    exact hv
  · by_cases hc : c = '.'
    · subst hc
      have heval := isNumLit_eval_dot v r2 hd
      rw [heval, Bool.and_eq_true, decide_eq_true_iff] at h
      obtain ⟨h1, h2⟩ := h
      have hr2 : r2.takeWhile Char.isDigit ++ r2.dropWhile Char.isDigit = r2 :=
        List.takeWhile_append_dropWhile _ _
      refine ⟨sgn, (stripSign v).takeWhile Char.isDigit ++ '.' :: r2.takeWhile Char.isDigit,
        r2.dropWhile Char.isDigit, hsgn,
        Or.inr ⟨(stripSign v).takeWhile Char.isDigit, r2.takeWhile Char.isDigit, rfl,
          takeWhile_all_sat Char.isDigit (stripSign v), h1,
          takeWhile_all_sat Char.isDigit r2⟩,
        (expTail_iff _).mp h2, ?_⟩
      have hX : ((stripSign v).takeWhile Char.isDigit ++ '.' :: r2.takeWhile Char.isDigit)
          ++ r2.dropWhile Char.isDigit = stripSign v := by
        rw [List.append_assoc, List.cons_append, hr2, ← hd, hsplit]
      rw [List.append_assoc, hX]
      exact hv
    · have heval := isNumLit_eval_other v (by
        intro r2' hcc
        rw [hd] at hcc
        obtain ⟨h', -⟩ := List.cons.inj hcc
        exact hc h')
      rw [heval, hd, Bool.and_eq_true, decide_eq_true_iff] at h
      obtain ⟨h1, h2⟩ := h
      refine ⟨sgn, (stripSign v).takeWhile Char.isDigit, c :: r2, hsgn,
        Or.inl ⟨h1, takeWhile_all_sat Char.isDigit (stripSign v)⟩, (expTail_iff _).mp h2, ?_⟩
      have hX : (stripSign v).takeWhile Char.isDigit ++ c :: r2 = stripSign v := by
        rw [← hd, hsplit]
      rw [List.append_assoc, hX]
      exact hv

/-- Helper: completeness of the matcher against the declarative grammar. -/
theorem isNumLit_complete (v : Str) (hn : NumLit v) : isNumLit v = true := by
  obtain ⟨sgn, m, e, hsgn, hm, he, rfl⟩ := hn
  have hmhead : ∀ c t, m ++ e = c :: t → ¬ (c = '-' ∨ c = '+') := by
    intro c t hct hsign
    rcases hm with ⟨hne, hall⟩ | ⟨i, f, hmif, hiall, hfne, hfall⟩
    · rcases m with _ | ⟨c0, m'⟩
      · exact hne rfl
      · rw [List.cons_append] at hct
        obtain ⟨rfl, -⟩ := List.cons.inj hct
        rw [List.all_cons, Bool.and_eq_true] at hall
        exact digit_not_sign _ hall.1 hsign
    · rcases i with _ | ⟨c0, i'⟩
      · rw [hmif] at hct
        simp only [List.nil_append, List.cons_append] at hct
        obtain ⟨rfl, -⟩ := List.cons.inj hct
        exact absurd hsign (by decide)
      · rw [hmif] at hct
        simp only [List.cons_append] at hct
        obtain ⟨rfl, -⟩ := List.cons.inj hct
        rw [List.all_cons, Bool.and_eq_true] at hiall
        exact digit_not_sign _ hiall.1 hsign
  have hstrip : stripSign (sgn ++ (m ++ e)) = m ++ e := stripSign_append _ _ hsgn hmhead
  obtain ⟨hetw, hedw⟩ := expo_head e he
  rcases hm with ⟨hne, hall⟩ | ⟨i, f, rfl, hiall, hfne, hfall⟩
  · have h1 : (m ++ e).takeWhile Char.isDigit = m ++ e.takeWhile Char.isDigit :=
      (takeWhile_append_all _ m e hall).1
    have h2 : (m ++ e).dropWhile Char.isDigit = e := by
      rw [(takeWhile_append_all _ m e hall).2, hedw]
    have hnotdot : ∀ r2, (stripSign (sgn ++ (m ++ e))).dropWhile Char.isDigit ≠ '.' :: r2 := by
      intro r2 hcc
      rw [hstrip, h2] at hcc
      rcases he with rfl | ⟨ec, es, ed, hec, -, -, -, rfl⟩
      · exact List.noConfusion hcc
      · obtain ⟨h', -⟩ := List.cons.inj hcc
        rcases hec with rfl | rfl
        · exact absurd h' (by decide)
        · exact absurd h' (by decide)
    rw [List.append_assoc, isNumLit_eval_other _ hnotdot, hstrip, h1, h2, hetw,
      List.append_nil]
    simp [hne, (expTail_iff e).mpr he]
  · have hassoc : (i ++ '.' :: f) ++ e = i ++ '.' :: (f ++ e) := by simp
    have hdw : ((i ++ '.' :: f) ++ e).dropWhile Char.isDigit = '.' :: (f ++ e) := by
      rw [hassoc, (takeWhile_append_all _ i _ hiall).2,
        (takeWhile_cons_neg _ '.' _ (by decide)).2]
    have heval := isNumLit_eval_dot (sgn ++ ((i ++ '.' :: f) ++ e)) (f ++ e)
      (by rw [hstrip, hdw])
    rw [List.append_assoc, heval]
    have ht : (f ++ e).takeWhile Char.isDigit = f := by
      rw [(takeWhile_append_all _ f e hfall).1, hetw, List.append_nil]
    have hdd : (f ++ e).dropWhile Char.isDigit = e := by
      rw [(takeWhile_append_all _ f e hfall).2, hedw]
    rw [ht, hdd]
    simp [hfne, (expTail_iff e).mpr he]

/-- C5: a parameter value is emitted bare when it is exactly `true` or
`false`; bare when it matches the numeric pattern (optional sign, digits,
optional fractional part, optional exponent — the declarative grammar
`NumLit`, proved equivalent to the source's regular expression matcher);
and escaped and quoted otherwise.  In particular `42` and `3.14e-2` go out
bare while `abc` and `1.2.3` go out quoted. -/
theorem C5_paramValueEmission :
    (∀ v : Str, isNumLit v = true ↔ NumLit v) ∧
    (∀ v : Str, v = "true".data ∨ v = "false".data → emitParamValue v = v) ∧
    (∀ v : Str, NumLit v → emitParamValue v = v) ∧
    (∀ v : Str, v ≠ "true".data → v ≠ "false".data → ¬ NumLit v →
      emitParamValue v = '"' :: (escapeJson v ++ ['"'])) ∧
    emitParamValue "42".data = "42".data ∧
    emitParamValue "3.14e-2".data = "3.14e-2".data ∧
    emitParamValue "true".data = "true".data ∧
    emitParamValue "false".data = "false".data ∧
    emitParamValue "abc".data = '"' :: ("abc".data ++ ['"']) ∧
    emitParamValue "1.2.3".data = '"' :: ("1.2.3".data ++ ['"']) := by
  refine ⟨fun v => ⟨isNumLit_sound v, isNumLit_complete v⟩, ?_, ?_, ?_,
    by decide, by decide, by decide, by decide, by decide, by decide⟩
  · intro v h
    simp [emitParamValue, h]
  · intro v h
    by_cases hb : v = "true".data ∨ v = "false".data
    · simp [emitParamValue, hb]
    · simp [emitParamValue, hb, isNumLit_complete v h]
  · intro v h1 h2 h3
    have hfalse : ¬ isNumLit v = true := fun hh => h3 (isNumLit_sound v hh)
    simp [emitParamValue, h1, h2, hfalse]

/-- C5 witness: a numeric literal with sign, fraction and exponent goes out
bare, via the grammar characterization. -/
theorem C5_witness : emitParamValue "-0.5E+3".data = "-0.5E+3".data :=
  C5_paramValueEmission.2.2.1 "-0.5E+3".data
    ((C5_paramValueEmission.1 "-0.5E+3".data).mp (by decide))
